import Mathlib

/-!
Shallow embedding of `src/prefect_sqlalchemy/database.py`.

The module wraps an external database toolkit: `_execute` acquires a
connection inside a scoped acquisition (`async with`), executes the query
with bound params, commits, and — after the scope has exited — returns the
driver's result handle.  `sqlalchemy_execute` discards that handle;
`sqlalchemy_query` fetches all rows (`limit is None`) or `limit` rows from it.

The embedding is parametric in the type `V` of column values and the type
`P` of parameter payloads (both are `Any` in the source).  The external
connection provider is modelled by an `Env`: the outcome of connection
acquisition, of executing a given query with given params, and of commit.
Each call produces a trace of the events the provider observes, so that
ordering and resource claims (release-on-every-path, fetch after release,
no rollback) are statable.
-/

/-- A SQL query: immutable text (`query: str` in the source). -/
abbrev Query := String

/-- Errors are opaque driver payloads, propagated unchanged (Python
exceptions); a string stands for the exception's identity. -/
abbrev DBError := String

/-- The driver error raised when fetching from a non-row-returning result;
the text is the one quoted in the source's own comment in
`sqlalchemy_execute`. -/
def noRowsError : DBError :=
  "This result object does not return rows. It has been closed automatically"

/-- Modelled from the spec: the error the underlying fetch-many
implementation surfaces for a negative fetch size (spec section 7,
"Invalid limit: negative or non-integer limit; surfaced at fetch time by the
underlying fetch-many implementation"); the fetch-many code itself is
external driver code, absent from `src/`. -/
def invalidLimitError : DBError :=
  "fetch-many size must be a non-negative integer"

/-- The driver's result handle (`CursorResult`): whether the executed
statement returns rows, and the remaining rows at the current cursor
position (each row a tuple of column values). -/
structure CursorResult (V : Type) where
  returns_rows : Bool
  rows : List (List V)
deriving DecidableEq

/-- Modelled from the spec: driver fetch-all semantics of the external
result handle (absent from `src/`) — returns every remaining row as a
sequence of tuples, or raises the "result object does not return rows"
error on a non-row-returning result (spec sections 4.3 and 7). -/
def CursorResult.fetchall {V : Type} (r : CursorResult V) :
    Except DBError (List (List V)) :=
  if r.returns_rows then Except.ok r.rows else Except.error noRowsError

/-- Modelled from the spec: driver fetch-many semantics of the external
result handle (absent from `src/`) — returns at most `limit` rows from the
current cursor position; raises the "result object does not return rows"
error on a non-row-returning result and an invalid-size error for a
negative `limit` (spec sections 4.3 and 7). -/
def CursorResult.fetchmany {V : Type} (r : CursorResult V) (limit : Int) :
    Except DBError (List (List V)) :=
  if r.returns_rows = false then Except.error noRowsError
  else if limit < 0 then Except.error invalidLimitError
  else Except.ok (r.rows.take limit.toNat)

/-- Events observed by the connection provider / result handle during one
call: scoped connection acquisition and release, statement execution with
bound params, transaction commit, transaction rollback (listed so that its
absence from every trace is statable), and the two fetch operations. -/
inductive Event (P : Type) where
  | acquire : Event P
  | exec (query : Query) (params : Option P) : Event P
  | commit : Event P
  | rollback : Event P
  | release : Event P
  | fetchall : Event P
  | fetchmany (limit : Int) : Event P
deriving DecidableEq

/-- The external environment of one call: the outcome of connection
acquisition (`credentials.get_connection()`), of `connection.execute` on a
given query and params, and of `connection.commit()`. -/
structure Env (V P : Type) where
  acquire : Except DBError Unit
  exec : Query → Option P → Except DBError (CursorResult V)
  commit : Except DBError Unit

/-- `_execute(query, sqlalchemy_credentials, params)` from the source:

    async with sqlalchemy_credentials.get_connection() as connection:
        result = await connection.execute(text(query), params)
        await connection.commit()
    return result

The scoped acquisition (`async with`) guarantees the release event on every
exit path once the connection was acquired; a failed acquisition acquires
nothing.  The result handle is returned after the scope has exited. -/
def _execute {V P : Type} (env : Env V P) (query : Query) (params : Option P) :
    List (Event P) × Except DBError (CursorResult V) :=
  match env.acquire with
  | Except.error e => ([], Except.error e)
  | Except.ok _ =>
    match env.exec query params with
    | Except.error e =>
        ([Event.acquire, Event.exec query params, Event.release], Except.error e)
    | Except.ok result =>
      match env.commit with
      | Except.error e =>
          ([Event.acquire, Event.exec query params, Event.commit, Event.release],
           Except.error e)
      | Except.ok _ =>
          ([Event.acquire, Event.exec query params, Event.commit, Event.release],
           Except.ok result)

/-- `sqlalchemy_execute(query, sqlalchemy_credentials, params)` from the
source: awaits `_execute` and returns nothing (the result handle is
deliberately discarded, per the comment in the source). -/
def sqlalchemy_execute {V P : Type} (env : Env V P) (query : Query)
    (params : Option P) : List (Event P) × Except DBError Unit :=
  match _execute env query params with
  | (tr, Except.error e) => (tr, Except.error e)
  | (tr, Except.ok _) => (tr, Except.ok ())

/-- `sqlalchemy_query(query, sqlalchemy_credentials, params, limit)` from
the source: awaits `_execute`, then

    if limit is None:
        return result.fetchall()
    else:
        return result.fetchmany(limit)
-/
def sqlalchemy_query {V P : Type} (env : Env V P) (query : Query)
    (params : Option P) (limit : Option Int) :
    List (Event P) × Except DBError (List (List V)) :=
  match _execute env query params with
  | (tr, Except.error e) => (tr, Except.error e)
  | (tr, Except.ok result) =>
    match limit with
    | none => (tr ++ [Event.fetchall], result.fetchall)
    | some n => (tr ++ [Event.fetchmany n], result.fetchmany n)

/-- Is the event a connection acquisition? -/
def Event.isAcquire {P : Type} : Event P → Bool
  | Event.acquire => true
  | _ => false

/-- Is the event a connection release? -/
def Event.isRelease {P : Type} : Event P → Bool
  | Event.release => true
  | _ => false

/-- Is the event a statement execution? -/
def Event.isExec {P : Type} : Event P → Bool
  | Event.exec _ _ => true
  | _ => false

/-- Is the event a transaction rollback? -/
def Event.isRollback {P : Type} : Event P → Bool
  | Event.rollback => true
  | _ => false

/-- Is the event one of the two fetch operations on the result handle? -/
def Event.isFetch {P : Type} : Event P → Bool
  | Event.fetchall => true
  | Event.fetchmany _ => true
  | _ => false

/-- Is the event an interaction with the connection provider (anything but
a fetch from the result handle)? -/
def Event.isConnectionEvent {P : Type} (e : Event P) : Bool :=
  !e.isFetch

/-- Does some fetch from the result handle occur strictly after some
connection release in the trace? -/
def fetchAfterRelease {P : Type} : List (Event P) → Bool
  | [] => false
  | e :: rest =>
      (e.isRelease && rest.any Event.isFetch) || fetchAfterRelease rest

/-! ### Helper lemmas: case analysis of `_execute` over the environment -/

theorem execute_of_acquire_error {V P : Type} (env : Env V P) (q : Query)
    (p : Option P) (e : DBError) (h : env.acquire = Except.error e) :
    _execute env q p = ([], Except.error e) := by
  simp [_execute, h]

theorem execute_of_exec_error {V P : Type} (env : Env V P) (q : Query)
    (p : Option P) (u : Unit) (e : DBError) (ha : env.acquire = Except.ok u)
    (he : env.exec q p = Except.error e) :
    _execute env q p =
      ([Event.acquire, Event.exec q p, Event.release], Except.error e) := by
  simp [_execute, ha, he]

theorem execute_of_commit_error {V P : Type} (env : Env V P) (q : Query)
    (p : Option P) (u : Unit) (r : CursorResult V) (e : DBError)
    (ha : env.acquire = Except.ok u) (he : env.exec q p = Except.ok r)
    (hc : env.commit = Except.error e) :
    _execute env q p =
      ([Event.acquire, Event.exec q p, Event.commit, Event.release],
       Except.error e) := by
  simp [_execute, ha, he, hc]

theorem execute_of_all_ok {V P : Type} (env : Env V P) (q : Query)
    (p : Option P) (u u' : Unit) (r : CursorResult V)
    (ha : env.acquire = Except.ok u) (he : env.exec q p = Except.ok r)
    (hc : env.commit = Except.ok u') :
    _execute env q p =
      ([Event.acquire, Event.exec q p, Event.commit, Event.release],
       Except.ok r) := by
  simp [_execute, ha, he, hc]

/-- If `_execute` succeeds, each environment step succeeded and the trace is
the full acquire-exec-commit-release sequence. -/
theorem execute_ok_inversion {V P : Type} (env : Env V P) (q : Query)
    (p : Option P) (r : CursorResult V)
    (h : (_execute env q p).2 = Except.ok r) :
    env.acquire = Except.ok () ∧ env.exec q p = Except.ok r ∧
      env.commit = Except.ok () ∧
      (_execute env q p).1 =
        [Event.acquire, Event.exec q p, Event.commit, Event.release] := by
  cases ha : env.acquire with
  | error e => rw [execute_of_acquire_error env q p e ha] at h; exact absurd h (by simp)
  | ok u =>
    cases u
    cases he : env.exec q p with
    | error e => rw [execute_of_exec_error env q p () e ha he] at h; exact absurd h (by simp)
    | ok r' =>
      cases hc : env.commit with
      | error e =>
        rw [execute_of_commit_error env q p () r' e ha he hc] at h
        exact absurd h (by simp)
      | ok u' =>
        cases u'
        have hx := execute_of_all_ok env q p () () r' ha he hc
        rw [hx] at h
        simp only [Except.ok.injEq] at h
        rw [h] at hx
        exact ⟨rfl, by rw [h], rfl, by rw [hx]⟩

/-- Unfolding of `sqlalchemy_execute` over the outcome of `_execute`. -/
theorem sqlalchemy_execute_eq {V P : Type} (env : Env V P) (q : Query)
    (p : Option P) :
    sqlalchemy_execute env q p =
      ((_execute env q p).1, Except.map (fun _ => ()) (_execute env q p).2) := by
  unfold sqlalchemy_execute
  cases h : _execute env q p with
  | mk tr res => cases res <;> simp [Except.map]

/-- Unfolding of `sqlalchemy_query` when `_execute` fails. -/
theorem sqlalchemy_query_of_error {V P : Type} (env : Env V P) (q : Query)
    (p : Option P) (lim : Option Int) (e : DBError)
    (h : (_execute env q p).2 = Except.error e) :
    sqlalchemy_query env q p lim = ((_execute env q p).1, Except.error e) := by
  unfold sqlalchemy_query
  cases hx : _execute env q p with
  | mk tr res =>
    rw [hx] at h
    simp only at h
    subst h
    rfl

/-- Unfolding of `sqlalchemy_query` when `_execute` succeeds. -/
theorem sqlalchemy_query_of_ok {V P : Type} (env : Env V P) (q : Query)
    (p : Option P) (lim : Option Int) (r : CursorResult V)
    (h : (_execute env q p).2 = Except.ok r) :
    sqlalchemy_query env q p lim =
      ((_execute env q p).1 ++
         [match lim with
          | none => Event.fetchall
          | some n => Event.fetchmany n],
       match lim with
       | none => r.fetchall
       | some n => r.fetchmany n) := by
  unfold sqlalchemy_query
  cases hx : _execute env q p with
  | mk tr res =>
    rw [hx] at h
    simp only at h
    subst h
    cases lim <;> rfl

/-! ### Concrete environments used by witnesses -/

/-- A concrete environment: acquisition, execution and commit all succeed,
and every statement yields a three-row, one-column result. -/
def envOK : Env Nat Nat :=
  { acquire := Except.ok ()
    exec := fun _ _ => Except.ok { returns_rows := true, rows := [[1], [2], [3]] }
    commit := Except.ok () }

/-- A concrete environment: statements execute and commit but the result
returns no rows (a DDL/DML result). -/
def envNoRows : Env Nat Nat :=
  { acquire := Except.ok ()
    exec := fun _ _ => Except.ok { returns_rows := false, rows := [] }
    commit := Except.ok () }

/-! ### Claims -/

/-- C1: for every call to `sqlalchemy_query` whose execution step succeeds,
if `limit` is `none` the task performs exactly one fetch, the fetch-all,
and returns every remaining row of the handle; if `limit` is a non-negative
integer `n` it performs exactly one fetch, the fetch-many, and returns at
most `n` rows taken from the current cursor position. -/
theorem sqlalchemy_query_fetch_dispatch {V P : Type} (env : Env V P)
    (q : Query) (p : Option P) (r : CursorResult V)
    (h : (_execute env q p).2 = Except.ok r) :
    ((sqlalchemy_query env q p none).2 = r.fetchall ∧
      (sqlalchemy_query env q p none).1.countP Event.isFetch = 1 ∧
      Event.fetchall ∈ (sqlalchemy_query env q p none).1 ∧
      (r.returns_rows = true →
        (sqlalchemy_query env q p none).2 = Except.ok r.rows)) ∧
    (∀ n : Int,
      (sqlalchemy_query env q p (some n)).2 = r.fetchmany n ∧
      (sqlalchemy_query env q p (some n)).1.countP Event.isFetch = 1 ∧
      Event.fetchmany n ∈ (sqlalchemy_query env q p (some n)).1 ∧
      (0 ≤ n → r.returns_rows = true →
        (sqlalchemy_query env q p (some n)).2 =
            Except.ok (r.rows.take n.toNat) ∧
          (r.rows.take n.toNat).length ≤ n.toNat)) := by
  obtain ⟨-, -, -, htr⟩ := execute_ok_inversion env q p r h
  constructor
  · rw [sqlalchemy_query_of_ok env q p none r h]
    refine ⟨rfl, ?_, ?_, ?_⟩
    · simp [htr, List.countP_append, List.countP_cons, Event.isFetch]
    · simp
    · intro hrr
      simp [CursorResult.fetchall, hrr]
  · intro n
    rw [sqlalchemy_query_of_ok env q p (some n) r h]
    refine ⟨rfl, ?_, ?_, ?_⟩
    · simp [htr, List.countP_append, List.countP_cons, Event.isFetch]
    · simp
    · intro hn hrr
      refine ⟨?_, ?_⟩
      · simp [CursorResult.fetchmany, hrr, Int.not_lt.mpr hn]
      · simp [List.length_take]

/-- Witness for C1: at `envOK` (three rows), the no-limit call returns all
three rows and the `limit = 2` call returns the first two. -/
theorem sqlalchemy_query_fetch_dispatch_witness :
    (sqlalchemy_query envOK "SELECT * FROM customers;" (none : Option Nat)
        none).2 = Except.ok [[1], [2], [3]] ∧
    (sqlalchemy_query envOK "SELECT * FROM customers;" (none : Option Nat)
        (some 2)).2 = Except.ok [[1], [2]] := by
  have hmain := sqlalchemy_query_fetch_dispatch envOK "SELECT * FROM customers;"
    none { returns_rows := true, rows := [[1], [2], [3]] } rfl
  exact ⟨hmain.1.2.2.2 rfl, ((hmain.2 2).2.2.2 (by decide) rfl).1⟩

/-- C2 counterexample: the claim says a read from the result handle never
happens after the scoped connection acquisition has exited, but at the
concrete environment `envOK` the successful call's trace performs the fetch
strictly after the connection release (`_execute` returns the handle after
its `async with` block has exited). -/
theorem sqlalchemy_query_fetch_before_release_cex :
    fetchAfterRelease
      ((sqlalchemy_query envOK "SELECT * FROM customers;" (none : Option Nat)
          none).1) = true := by
  decide

/-- C2 (amended): for every call to `sqlalchemy_query` whose execution step
succeeds, the fetch from the result handle occurs strictly after the scoped
connection acquisition has exited, i.e. the rows are read after the
connection release. -/
theorem sqlalchemy_query_fetch_after_release {V P : Type} (env : Env V P)
    (q : Query) (p : Option P) (lim : Option Int) (r : CursorResult V)
    (h : (_execute env q p).2 = Except.ok r) :
    fetchAfterRelease ((sqlalchemy_query env q p lim).1) = true := by
  obtain ⟨-, -, -, htr⟩ := execute_ok_inversion env q p r h
  rw [sqlalchemy_query_of_ok env q p lim r h, htr]
  cases lim <;>
    simp [fetchAfterRelease, Event.isRelease, Event.isFetch, List.any]

/-- Witness for C2's amended theorem at `envOK` with `limit = 1`. -/
theorem sqlalchemy_query_fetch_after_release_witness :
    fetchAfterRelease
      ((sqlalchemy_query envOK "SELECT name FROM customers;"
          (none : Option Nat) (some 1)).1) = true :=
  sqlalchemy_query_fetch_after_release envOK "SELECT name FROM customers;"
    none (some 1) { returns_rows := true, rows := [[1], [2], [3]] } rfl

/-- C3: for a successful row-returning execution, any integer limit with
`0 ≤ limit ≤ N` (where `N` is the number of rows) returns exactly `limit`
rows forming a prefix, in cursor order, of the full result (what the
no-limit call returns); any `limit > N` returns all `N` rows without error;
`limit = 0` returns the empty sequence. -/
theorem sqlalchemy_query_limit_prefix {V P : Type} (env : Env V P)
    (q : Query) (p : Option P) (r : CursorResult V)
    (h : (_execute env q p).2 = Except.ok r) (hrr : r.returns_rows = true)
    (n : Int) :
    (sqlalchemy_query env q p none).2 = Except.ok r.rows ∧
    (0 ≤ n → n ≤ (r.rows.length : Int) →
      ∃ out, (sqlalchemy_query env q p (some n)).2 = Except.ok out ∧
        (out.length : Int) = n ∧ out <+: r.rows) ∧
    ((r.rows.length : Int) < n →
      (sqlalchemy_query env q p (some n)).2 = Except.ok r.rows) ∧
    (sqlalchemy_query env q p (some 0)).2 = Except.ok ([] : List (List V)) := by
  refine ⟨?_, ?_, ?_, ?_⟩
  · rw [sqlalchemy_query_of_ok env q p none r h]
    simp [CursorResult.fetchall, hrr]
  · intro h0 hN
    refine ⟨r.rows.take n.toNat, ?_, ?_, List.take_prefix _ _⟩
    · rw [sqlalchemy_query_of_ok env q p (some n) r h]
      simp [CursorResult.fetchmany, hrr, Int.not_lt.mpr h0]
    · simp only [List.length_take]
      omega
  · intro hlt
    rw [sqlalchemy_query_of_ok env q p (some n) r h]
    have h0 : ¬ n < 0 := by omega
    have hle : r.rows.length ≤ n.toNat := by omega
    simp [CursorResult.fetchmany, hrr, h0, List.take_of_length_le hle]
  · rw [sqlalchemy_query_of_ok env q p (some 0) r h]
    simp [CursorResult.fetchmany, hrr]

/-- Witness for C3 at `envOK` (three rows): `limit = 5 > 3` returns all
three rows and `limit = 0` returns the empty sequence. -/
theorem sqlalchemy_query_limit_prefix_witness :
    (sqlalchemy_query envOK "SELECT * FROM customers;" (none : Option Nat)
        (some 5)).2 = Except.ok [[1], [2], [3]] ∧
    (sqlalchemy_query envOK "SELECT * FROM customers;" (none : Option Nat)
        (some 0)).2 = Except.ok ([] : List (List Nat)) := by
  have hmain := sqlalchemy_query_limit_prefix envOK "SELECT * FROM customers;"
    none { returns_rows := true, rows := [[1], [2], [3]] } rfl rfl 5
  exact ⟨hmain.2.2.1 (by decide), hmain.2.2.2⟩

/-- C4: on every path — success, or failure of acquisition, execution,
commit or fetch — the number of connection releases observed equals the
number of acquisitions, for the helper and for both public tasks: no
connection is leaked. -/
theorem connection_never_leaked {V P : Type} (env : Env V P) (q : Query)
    (p : Option P) (lim : Option Int) :
    (_execute env q p).1.countP Event.isAcquire =
        (_execute env q p).1.countP Event.isRelease ∧
    (sqlalchemy_execute env q p).1.countP Event.isAcquire =
        (sqlalchemy_execute env q p).1.countP Event.isRelease ∧
    (sqlalchemy_query env q p lim).1.countP Event.isAcquire =
        (sqlalchemy_query env q p lim).1.countP Event.isRelease := by
  have hexec : (_execute env q p).1.countP Event.isAcquire =
      (_execute env q p).1.countP Event.isRelease := by
    cases ha : env.acquire with
    | error e => rw [execute_of_acquire_error env q p e ha]; rfl
    | ok u =>
      cases u
      cases he : env.exec q p with
      | error e =>
        rw [execute_of_exec_error env q p () e ha he]
        simp [List.countP_cons, Event.isAcquire, Event.isRelease]
      | ok r =>
        cases hc : env.commit with
        | error e =>
          rw [execute_of_commit_error env q p () r e ha he hc]
          simp [List.countP_cons, Event.isAcquire, Event.isRelease]
        | ok u' =>
          cases u'
          rw [execute_of_all_ok env q p () () r ha he hc]
          simp [List.countP_cons, Event.isAcquire, Event.isRelease]
  refine ⟨hexec, ?_, ?_⟩
  · rw [sqlalchemy_execute_eq env q p]
    exact hexec
  · cases hres : (_execute env q p).2 with
    | error e =>
      rw [sqlalchemy_query_of_error env q p lim e hres]
      exact hexec
    | ok r =>
      rw [sqlalchemy_query_of_ok env q p lim r hres]
      cases lim <;>
        simp [List.countP_append, List.countP_cons, Event.isAcquire,
          Event.isRelease, hexec]

/-- C5: `_execute` runs exactly acquire, execute-with-params, commit,
release in that order on the fully successful path and returns the
execution's result handle; the commit is attempted after every successful
execution (even when the commit itself fails); and no rollback event occurs
on any path. -/
theorem execute_linear_sequence {V P : Type} (env : Env V P) (q : Query)
    (p : Option P) :
    (∀ r : CursorResult V, (_execute env q p).2 = Except.ok r →
      (_execute env q p).1 =
        [Event.acquire, Event.exec q p, Event.commit, Event.release]) ∧
    (∀ (u : Unit) (r : CursorResult V), env.acquire = Except.ok u →
      env.exec q p = Except.ok r → Event.commit ∈ (_execute env q p).1) ∧
    (∀ (u u' : Unit) (r : CursorResult V), env.acquire = Except.ok u →
      env.exec q p = Except.ok r → env.commit = Except.ok u' →
      (_execute env q p).2 = Except.ok r) ∧
    (_execute env q p).1.countP Event.isRollback = 0 := by
  refine ⟨?_, ?_, ?_, ?_⟩
  · intro r h
    exact (execute_ok_inversion env q p r h).2.2.2
  · intro u r ha he
    cases u
    cases hc : env.commit with
    | error e =>
      rw [execute_of_commit_error env q p () r e ha he hc]
      simp
    | ok u' =>
      cases u'
      rw [execute_of_all_ok env q p () () r ha he hc]
      simp
  · intro u u' r ha he hc
    cases u
    cases u'
    rw [execute_of_all_ok env q p () () r ha he hc]
  · cases ha : env.acquire with
    | error e => rw [execute_of_acquire_error env q p e ha]; rfl
    | ok u =>
      cases u
      cases he : env.exec q p with
      | error e =>
        rw [execute_of_exec_error env q p () e ha he]
        simp [List.countP_cons, Event.isRollback]
      | ok r =>
        cases hc : env.commit with
        | error e =>
          rw [execute_of_commit_error env q p () r e ha he hc]
          simp [List.countP_cons, Event.isRollback]
        | ok u' =>
          cases u'
          rw [execute_of_all_ok env q p () () r ha he hc]
          simp [List.countP_cons, Event.isRollback]

/-- Witness for C5 at `envOK`: the successful trace is exactly the
acquire, execute, commit, release sequence. -/
theorem execute_linear_sequence_witness :
    (_execute envOK "INSERT INTO t VALUES (1);" (none : Option Nat)).1 =
      [Event.acquire, Event.exec "INSERT INTO t VALUES (1);" none,
       Event.commit, Event.release] :=
  (execute_linear_sequence envOK "INSERT INTO t VALUES (1);" none).1
    { returns_rows := true, rows := [[1], [2], [3]] } rfl

/-- C6: `sqlalchemy_execute` invokes the helper and discards the returned
result handle: its provider trace is exactly the helper's (no fetch is
added), it succeeds with no value exactly when the helper succeeds, and on
success the commit has been performed. -/
theorem sqlalchemy_execute_returns_none {V P : Type} (env : Env V P)
    (q : Query) (p : Option P) :
    (sqlalchemy_execute env q p).1 = (_execute env q p).1 ∧
    ((sqlalchemy_execute env q p).2 = Except.ok () ↔
      ∃ r : CursorResult V, (_execute env q p).2 = Except.ok r) ∧
    ((sqlalchemy_execute env q p).2 = Except.ok () →
      env.commit = Except.ok () ∧
      Event.commit ∈ (sqlalchemy_execute env q p).1) := by
  rw [sqlalchemy_execute_eq env q p]
  refine ⟨rfl, ?_, ?_⟩
  · cases hres : (_execute env q p).2 with
    | error e => simp [Except.map]
    | ok r => simp [Except.map]
  · intro hok
    cases hres : (_execute env q p).2 with
    | error e =>
      rw [hres] at hok
      exact absurd hok (by simp [Except.map])
    | ok r =>
      obtain ⟨-, -, hc, htr⟩ := execute_ok_inversion env q p r hres
      refine ⟨hc, ?_⟩
      simp only [htr]
      simp

/-- Witness for C6 at `envOK`: the task returns no value on success. -/
theorem sqlalchemy_execute_returns_none_witness :
    (sqlalchemy_execute envOK "CREATE TABLE t (x int);"
        (none : Option Nat)).2 = Except.ok () :=
  (sqlalchemy_execute_returns_none envOK "CREATE TABLE t (x int);"
      none).2.1.mpr ⟨{ returns_rows := true, rows := [[1], [2], [3]] }, rfl⟩

/-- C7: every error propagates to the caller unchanged — a failure of
acquisition, execution or commit makes both tasks fail with that same
error; a fetch failure makes the query task fail with the fetch's own
error; a successful query call returns exactly the handle's full requested
fetch (no partial result); and no statement is executed more than once per
call (no retry). -/
theorem errors_propagate_unchanged {V P : Type} (env : Env V P) (q : Query)
    (p : Option P) (lim : Option Int) (e : DBError) :
    ((_execute env q p).2 = Except.error e →
      (sqlalchemy_execute env q p).2 = Except.error e ∧
      (sqlalchemy_query env q p lim).2 = Except.error e) ∧
    (∀ r : CursorResult V, (_execute env q p).2 = Except.ok r →
      ((sqlalchemy_query env q p none).2 = Except.error e ↔
        r.fetchall = Except.error e) ∧
      ∀ n : Int, ((sqlalchemy_query env q p (some n)).2 = Except.error e ↔
        r.fetchmany n = Except.error e)) ∧
    (∀ rows : List (List V), (sqlalchemy_query env q p lim).2 = Except.ok rows →
      ∃ r : CursorResult V, (_execute env q p).2 = Except.ok r ∧
        (match lim with
         | none => r.fetchall
         | some n => r.fetchmany n) = Except.ok rows) ∧
    (sqlalchemy_execute env q p).1.countP Event.isExec ≤ 1 ∧
    (sqlalchemy_query env q p lim).1.countP Event.isExec ≤ 1 := by
  have hexec1 : (_execute env q p).1.countP Event.isExec ≤ 1 := by
    cases ha : env.acquire with
    | error e' => rw [execute_of_acquire_error env q p e' ha]; simp
    | ok u =>
      cases u
      cases he : env.exec q p with
      | error e' =>
        rw [execute_of_exec_error env q p () e' ha he]
        simp [List.countP_cons, Event.isExec]
      | ok r =>
        cases hc : env.commit with
        | error e' =>
          rw [execute_of_commit_error env q p () r e' ha he hc]
          simp [List.countP_cons, Event.isExec]
        | ok u' =>
          cases u'
          rw [execute_of_all_ok env q p () () r ha he hc]
          simp [List.countP_cons, Event.isExec]
  refine ⟨?_, ?_, ?_, ?_, ?_⟩
  · intro hres
    constructor
    · rw [sqlalchemy_execute_eq env q p, hres]
      rfl
    · rw [sqlalchemy_query_of_error env q p lim e hres]
  · intro r hres
    constructor
    · rw [sqlalchemy_query_of_ok env q p none r hres]
    · intro n
      rw [sqlalchemy_query_of_ok env q p (some n) r hres]
  · intro rows hok
    cases hres : (_execute env q p).2 with
    | error e' =>
      rw [sqlalchemy_query_of_error env q p lim e' hres] at hok
      exact absurd hok (by simp)
    | ok r =>
      rw [sqlalchemy_query_of_ok env q p lim r hres] at hok
      exact ⟨r, rfl, hok⟩
  · rw [sqlalchemy_execute_eq env q p]
    exact hexec1
  · cases hres : (_execute env q p).2 with
    | error e' =>
      rw [sqlalchemy_query_of_error env q p lim e' hres]
      exact hexec1
    | ok r =>
      rw [sqlalchemy_query_of_ok env q p lim r hres]
      cases lim <;>
        simp only [List.countP_append] <;>
        simp [List.countP_cons, Event.isExec] <;>
        omega

/-- A concrete environment whose connection acquisition fails. -/
def envAcquireFail : Env Nat Nat :=
  { acquire := Except.error "connection refused"
    exec := fun _ _ => Except.ok { returns_rows := true, rows := [] }
    commit := Except.ok () }

/-- Witness for C7 at `envAcquireFail`: the acquisition error reaches the
query task unchanged. -/
theorem errors_propagate_unchanged_witness :
    (sqlalchemy_query envAcquireFail "SELECT 1;" (none : Option Nat)
        none).2 = Except.error "connection refused" :=
  ((errors_propagate_unchanged envAcquireFail "SELECT 1;" none none
      "connection refused").1 rfl).2

/-- C8: executing a non-row-returning statement through `sqlalchemy_query`
raises the driver's "result object does not return rows" error at fetch
time rather than returning a value, for every limit; exactly one fetch is
attempted. -/
theorem sqlalchemy_query_nonrow_error {V P : Type} (env : Env V P)
    (q : Query) (p : Option P) (lim : Option Int) (r : CursorResult V)
    (h : (_execute env q p).2 = Except.ok r) (hrr : r.returns_rows = false) :
    (sqlalchemy_query env q p lim).2 = Except.error noRowsError ∧
    (sqlalchemy_query env q p lim).1.countP Event.isFetch = 1 := by
  obtain ⟨-, -, -, htr⟩ := execute_ok_inversion env q p r h
  rw [sqlalchemy_query_of_ok env q p lim r h]
  constructor
  · cases lim with
    | none => simp [CursorResult.fetchall, hrr]
    | some n => simp [CursorResult.fetchmany, hrr]
  · cases lim <;>
      simp [htr, List.countP_append, List.countP_cons, Event.isFetch]

/-- Witness for C8 at `envNoRows` with an INSERT statement. -/
theorem sqlalchemy_query_nonrow_error_witness :
    (sqlalchemy_query envNoRows
        "INSERT INTO customers VALUES ('A','B');" (none : Option Nat)
        none).2 = Except.error noRowsError :=
  (sqlalchemy_query_nonrow_error envNoRows
      "INSERT INTO customers VALUES ('A','B');" none none
      { returns_rows := false, rows := [] } rfl rfl).1

/-- C9: a negative `limit` makes `sqlalchemy_query` fail rather than return
rows: the fetch-many is the operation attempted (the error is surfaced at
fetch time, after execute and commit), the call returns the fetch-many's
own error, and on a row-returning result that error is the
invalid-fetch-size error. -/
theorem sqlalchemy_query_negative_limit {V P : Type} (env : Env V P)
    (q : Query) (p : Option P) (n : Int) (r : CursorResult V)
    (h : (_execute env q p).2 = Except.ok r) (hn : n < 0) :
    (∃ e, (sqlalchemy_query env q p (some n)).2 = Except.error e) ∧
    Event.fetchmany n ∈ (sqlalchemy_query env q p (some n)).1 ∧
    (r.returns_rows = true →
      (sqlalchemy_query env q p (some n)).2 =
        Except.error invalidLimitError) := by
  rw [sqlalchemy_query_of_ok env q p (some n) r h]
  refine ⟨?_, by simp, ?_⟩
  · cases hb : r.returns_rows with
    | false => exact ⟨noRowsError, by simp [CursorResult.fetchmany, hb]⟩
    | true => exact ⟨invalidLimitError, by simp [CursorResult.fetchmany, hb, hn]⟩
  · intro hrr
    simp [CursorResult.fetchmany, hrr, hn]

/-- Witness for C9 at `envOK` with `limit = -1`. -/
theorem sqlalchemy_query_negative_limit_witness :
    (sqlalchemy_query envOK "SELECT * FROM customers;" (none : Option Nat)
        (some (-1))).2 = Except.error invalidLimitError :=
  (sqlalchemy_query_negative_limit envOK "SELECT * FROM customers;" none
      (-1) { returns_rows := true, rows := [[1], [2], [3]] } rfl
      (by decide)).2.2 rfl

/-- C10: both public tasks are implemented by delegating to `_execute`:
for identical query, environment and params they present the identical
acquire-execute-commit-release sequence to the connection provider (the
execute task's trace is exactly the helper's; the query task's trace
restricted to connection events is the same), and they differ only in the
handling of the returned result handle — the execute task discards it, the
query task fetches from it. -/
theorem tasks_delegate_to_execute {V P : Type} (env : Env V P) (q : Query)
    (p : Option P) (lim : Option Int) :
    (sqlalchemy_execute env q p).1 = (_execute env q p).1 ∧
    (sqlalchemy_query env q p lim).1.filter Event.isConnectionEvent =
      (_execute env q p).1 ∧
    (sqlalchemy_execute env q p).1.filter Event.isConnectionEvent =
      (sqlalchemy_query env q p lim).1.filter Event.isConnectionEvent ∧
    (sqlalchemy_execute env q p).2 =
      Except.map (fun _ => ()) (_execute env q p).2 ∧
    (∀ r : CursorResult V, (_execute env q p).2 = Except.ok r →
      (sqlalchemy_query env q p lim).2 =
        (match lim with
         | none => r.fetchall
         | some n => r.fetchmany n)) := by
  have hfil : (_execute env q p).1.filter Event.isConnectionEvent =
      (_execute env q p).1 := by
    cases ha : env.acquire with
    | error e => rw [execute_of_acquire_error env q p e ha]; rfl
    | ok u =>
      cases u
      cases he : env.exec q p with
      | error e =>
        rw [execute_of_exec_error env q p () e ha he]
        simp [List.filter, Event.isConnectionEvent, Event.isFetch]
      | ok r =>
        cases hc : env.commit with
        | error e =>
          rw [execute_of_commit_error env q p () r e ha he hc]
          simp [List.filter, Event.isConnectionEvent, Event.isFetch]
        | ok u' =>
          cases u'
          rw [execute_of_all_ok env q p () () r ha he hc]
          simp [List.filter, Event.isConnectionEvent, Event.isFetch]
  have hqfil : (sqlalchemy_query env q p lim).1.filter Event.isConnectionEvent =
      (_execute env q p).1 := by
    cases hres : (_execute env q p).2 with
    | error e =>
      rw [sqlalchemy_query_of_error env q p lim e hres]
      exact hfil
    | ok r =>
      rw [sqlalchemy_query_of_ok env q p lim r hres]
      cases lim <;>
        simp only [List.filter_append] <;>
        simp [List.filter, Event.isConnectionEvent, Event.isFetch, hfil]
  refine ⟨?_, hqfil, ?_, ?_, ?_⟩
  · rw [sqlalchemy_execute_eq env q p]
  · rw [sqlalchemy_execute_eq env q p]
    simp only
    rw [hfil, hqfil]
  · rw [sqlalchemy_execute_eq env q p]
  · intro r hres
    rw [sqlalchemy_query_of_ok env q p lim r hres]

/-- Witness for C10 at `envOK`: the query task's result is the handle's
fetch for `limit = 1`. -/
theorem tasks_delegate_to_execute_witness :
    (sqlalchemy_query envOK "SELECT * FROM customers;" (none : Option Nat)
        (some 1)).2 = Except.ok [[1]] :=
  ((tasks_delegate_to_execute envOK "SELECT * FROM customers;" none
        (some 1)).2.2.2.2
      { returns_rows := true, rows := [[1], [2], [3]] } rfl).trans rfl
